import Mathlib

/-!
# Verification of the waste-dashboard data pipeline

A shallow embedding of the data-transformation pipeline of the waste
visualization dashboard:

* `src/utils/dataProcessing.js` — `loadWasteData`, `prepareTimeSeriesData`,
  `prepareNetworkData`, `prepareCompositionData`, `prepareDistributionData`;
* `src/data/wasteData.js` — the module-level CSV load and default export.

Modelling conventions:

* JS numbers are modelled as `ℚ` (weights) and `Int` (years); floating-point
  rounding is out of scope of the verified properties, which concern grouping,
  filtering and aggregation structure.
* A possibly-`null`/`NaN` year is `Option Int` (`none` covers both `null` and
  `NaN`, which coincide for every use in this pipeline: both are falsy and both
  are excluded by the validity filter).
* `d3.group`/`d3.rollup` return insertion-ordered maps: keys appear in order of
  first appearance, each group holding its records in input order.  This is
  modelled by `groupBy` below.
* `Array.prototype.sort` is stable (ES2019) and all comparators used are total
  preorders on a numeric key, so sorting is modelled by the stable
  `List.insertionSort` with the corresponding non-strict relation.
* The asynchronous-failure path of `d3.csv` is modelled with `Except`.
-/

namespace WMS

/-! ## Generic list helpers mirroring the d3 primitives -/

/-- Keys of an insertion-ordered map: first occurrence of each value, in order
of first appearance (the key order of `d3.group` / `d3.rollup` / JS object
property insertion). -/
def dedupFirst {β : Type} [DecidableEq β] : List β → List β
  | [] => []
  | x :: xs => x :: (dedupFirst xs).filter (fun y => decide (y ≠ x))

/-- `d3.group(l, f)`: an insertion-ordered list of `(key, group)` pairs; keys in
first-appearance order, each group holding the matching elements in input
order. -/
def groupBy {α β : Type} [DecidableEq β] (f : α → β) (l : List α) :
    List (β × List α) :=
  (dedupFirst (l.map f)).map (fun k => (k, l.filter (fun x => decide (f x = k))))

/-- `d3.sum(l, w)` (no record of this pipeline carries `NaN`/`undefined`
weights past the loader, so plain summation is the model). -/
def sumBy {α : Type} (w : α → ℚ) (l : List α) : ℚ := (l.map w).sum

/-! ## JS string/number primitives used by the loader -/

/-- `s.replace(/,/g, '')`. -/
def stripCommas (s : String) : String :=
  String.mk (s.data.filter (fun c => decide (c ≠ ',')))

/-- Longest prefix of decimal digits, and the rest. -/
def spanDigits : List Char → List Char × List Char
  | [] => ([], [])
  | c :: cs =>
    if c.isDigit then
      let p := spanDigits cs
      (c :: p.1, p.2)
    else ([], c :: cs)

/-- Digit string to a natural number (most significant first). -/
def digitsToNat (ds : List Char) : Nat :=
  ds.foldl (fun n c => 10 * n + (c.toNat - ('0').toNat)) 0

/-- JS leading-whitespace skipping done by `parseInt`/`parseFloat`. -/
def skipWs (cs : List Char) : List Char :=
  cs.dropWhile (fun c => decide (c = ' ' ∨ c = '\t' ∨ c = '\n' ∨ c = '\r'))

/-- Optional leading sign; returns (isNegative, rest). -/
def splitSign : List Char → Bool × List Char
  | '-' :: cs => (true, cs)
  | '+' :: cs => (false, cs)
  | cs => (false, cs)

/-- `parseFloat`: longest numeric prefix `[sign] digits [. digits]`; `none`
models `NaN` (no numeric prefix at all).  Exponents and `Infinity` do not occur
in the data and are not modelled. -/
def parseFloatJS (s : String) : Option ℚ :=
  let cs := skipWs s.data
  let p := splitSign cs
  let ip := spanDigits p.2
  let fp := match ip.2 with
    | '.' :: cs2 => spanDigits cs2
    | _ => ([], [])
  if ip.1 = [] ∧ fp.1 = [] then none
  else
    let mag : ℚ := (digitsToNat ip.1 : ℚ) + (digitsToNat fp.1 : ℚ) / (10 : ℚ) ^ fp.1.length
    some (if p.1 then -mag else mag)

/-- `parseInt` (radix 10): longest digit prefix after optional sign; `none`
models `NaN`. -/
def parseIntJS (s : String) : Option Int :=
  let cs := skipWs s.data
  let p := splitSign cs
  let ds := (spanDigits p.2).1
  if ds = [] then none
  else some (if p.1 then -(digitsToNat ds : Int) else (digitsToNat ds : Int))

/-- `x || dflt` for an optional string `x` (`undefined` and `""` are falsy). -/
def jsOrStr (o : Option String) (dflt : String) : String :=
  match o with
  | none => dflt
  | some s => if s = "" then dflt else s

/-- JS truthiness of a number-or-null: `null`, `NaN` (both `none`) and `0` are
falsy. -/
def numTruthy : Option Int → Bool
  | none => false
  | some y => decide (y ≠ 0)

/-! ## Data model -/

/-- One raw CSV row as handed over by `d3.csv`: header name → string, a missing
column being `none`. -/
structure RawRow where
  year : Option String
  month : Option String
  day : Option String
  category : Option String
  materialType : Option String
  weightLbs : Option String
  vendor : Option String
  dateUpdated : Option String
  cost : Option String
deriving DecidableEq

/-- One processed record (the object built per row in `loadWasteData`,
`dataProcessing.js` lines 149–159). -/
structure Record where
  Year : Option Int
  Month : String
  Day : String
  Category : String
  MaterialType : String
  Weight : ℚ
  Vendor : String
  DateUpdated : String
  Cost : String
deriving DecidableEq

/-- The per-row mapping of `loadWasteData` (`dataProcessing.js` lines 144–159):
weight string defaulted to `"0"`, commas stripped, `NaN` weight replaced by 0;
year parsed when the string is truthy, else `null`. -/
def loadRow (row : RawRow) : Record :=
  let weightStr := jsOrStr row.weightLbs "0"
  let weight := (parseFloatJS (stripCommas weightStr)).getD 0
  { Year := match row.year with
      | none => none
      | some s => if s = "" then none else parseIntJS s
    Month := jsOrStr row.month ""
    Day := jsOrStr row.day ""
    Category := jsOrStr row.category ""
    MaterialType := jsOrStr row.materialType ""
    Weight := weight
    Vendor := jsOrStr row.vendor ""
    DateUpdated := jsOrStr row.dateUpdated ""
    Cost := jsOrStr row.cost "" }

/-- The validity filter `d => d.Year && d.Category && d.Weight > 0`
(`dataProcessing.js` line 160). -/
def validRecord (d : Record) : Bool :=
  numTruthy d.Year && decide (d.Category ≠ "") && decide ((0 : ℚ) < d.Weight)

/-- `loadWasteData` on a successfully parsed CSV. -/
def loadWasteDataOk (rows : List RawRow) : List Record :=
  (rows.map loadRow).filter validRecord

/-- `loadWasteData` (`dataProcessing.js` lines 138–165): the `try`/`catch`
returns `[]` when `d3.csv` rejects; modelled by the `Except` input. -/
def loadWasteData (input : Except String (List RawRow)) : List Record :=
  match input with
  | Except.ok rows => loadWasteDataOk rows
  | Except.error _ => []

/-! ## Time-series builder -/

/-- One per-year entry of `prepareTimeSeriesData` (object literal at
`dataProcessing.js` lines 183–189). -/
structure YearTotal where
  year : Option Int
  landfill : ℚ
  recycling : ℚ
  compost : ℚ
  total : ℚ
deriving DecidableEq

/-- The property names of the object literal at `dataProcessing.js` lines
183–189: the key set of each per-year entry. -/
def yearTotalKeys : List String := ["year", "landfill", "recycling", "compost", "total"]

/-- JS `a.year - b.year` comparator key: `null` coerces to 0 in arithmetic. -/
def yearNum : Option Int → Int
  | none => 0
  | some y => y

/-- The `Array.from` callback of `prepareTimeSeriesData` (lines 177–189): note
that the `recycling` total sums records whose category is the literal
`"Recycle"`. -/
def yearTotalOf (year : Option Int) (yearData : List Record) : YearTotal :=
  let landfill := sumBy Record.Weight (yearData.filter (fun d => decide (d.Category = "Landfill")))
  let recycling := sumBy Record.Weight (yearData.filter (fun d => decide (d.Category = "Recycle")))
  let compost := sumBy Record.Weight (yearData.filter (fun d => decide (d.Category = "Compost")))
  ⟨year, landfill, recycling, compost, landfill + recycling + compost⟩

/-- `prepareTimeSeriesData` (`dataProcessing.js` lines 172–191): group by year,
build per-year totals, sort ascending by year (stable `.sort((a, b) => a.year - b.year)`). -/
def prepareTimeSeriesData (data : List Record) : List YearTotal :=
  ((groupBy (fun d => d.Year) data).map (fun g => yearTotalOf g.1 g.2)).insertionSort
    (fun a b => yearNum a.year ≤ yearNum b.year)

/-! ## Graph builder -/

structure NetNode where
  name : String
  type : String
deriving DecidableEq

structure NetLink where
  source : Int
  target : Int
  value : ℚ
  sourceName : String
  targetName : String
deriving DecidableEq

structure FlowGraph where
  nodes : List NetNode
  links : List NetLink
deriving DecidableEq

/-- The renaming applied inside the graph builder:
`d.Category === 'Recycle' ? 'Recycling' : d.Category`. -/
def normCat (c : String) : String := if c = "Recycle" then "Recycling" else c

/-- The year filter `year ? data.filter(d => d.Year === year) : data` shared by
the three parameterised builders; `none` models the falsy cases (`undefined`,
`null`, `0`). -/
def yearFilter (data : List Record) (year : Option Int) : List Record :=
  match year with
  | some y => data.filter (fun d => decide (d.Year = some y))
  | none => data

/-- `nodes.findIndex(node => node.name === n)` (-1 when absent). -/
def findIndexByName (nodes : List NetNode) (n : String) : Int :=
  match nodes.findIdx? (fun node => node.name == n) with
  | some i => (i : Int)
  | none => -1

/-- The node array of `prepareNetworkData` (lines 208–215): category nodes
(normalized names) then material nodes, each set in first-appearance order. -/
def networkNodes (yearData : List Record) : List NetNode :=
  (dedupFirst (yearData.map (fun d => normCat d.Category))).map
      (fun name => NetNode.mk name "category")
    ++ (dedupFirst (yearData.map (fun d => d.MaterialType))).map
      (fun name => NetNode.mk name "material")

/-- The link built for one record (lines 218–231): **one link per record**,
carrying the record's weight. -/
def networkLink (nodes : List NetNode) (d : Record) : NetLink :=
  let sourceName := d.MaterialType
  let targetName := normCat d.Category
  NetLink.mk (findIndexByName nodes sourceName) (findIndexByName nodes targetName)
    d.Weight sourceName targetName

/-- `prepareNetworkData` (`dataProcessing.js` lines 199–235): early return on an
empty filtered set, otherwise the node array and one link per record. -/
def prepareNetworkData (data : List Record) (year : Option Int) : FlowGraph :=
  let yearData := yearFilter data year
  if yearData.length = 0 then ⟨[], []⟩
  else ⟨networkNodes yearData, yearData.map (networkLink (networkNodes yearData))⟩

/-! ## Hierarchy builder -/

structure CompLeaf where
  name : String
  value : ℚ
deriving DecidableEq

structure CompCat where
  name : String
  children : List CompLeaf
deriving DecidableEq

structure CompRoot where
  name : String
  children : List CompCat
deriving DecidableEq

/-- `d3.rollup(l, v => d3.sum(v, d => d.Weight), key)` as an insertion-ordered
association list. -/
def rollupSum (key : Record → String) (l : List Record) : List (String × ℚ) :=
  (groupBy key l).map (fun g => (g.1, sumBy Record.Weight g.2))

/-- The children of one category node of `prepareCompositionData` (lines
253–280): rollup by material over the records whose category is the literal
`srcCat`, drop non-positive values, sort descending by value (stable). -/
def categoryChildren (yearData : List Record) (srcCat : String) : List CompLeaf :=
  (((rollupSum (fun d => d.MaterialType)
        (yearData.filter (fun d => decide (d.Category = srcCat)))).map
      (fun p => CompLeaf.mk p.1 p.2)).filter
    (fun item => decide (0 < item.value))).insertionSort
    (fun a b => b.value ≤ a.value)

/-- `prepareCompositionData` (`dataProcessing.js` lines 243–282): fixed root
"Total Waste" with the three fixed category children; the "Recycling" subtree
is built from records whose category is the literal `"Recycle"`. -/
def prepareCompositionData (data : List Record) (year : Option Int) : CompRoot :=
  let yearData := yearFilter data year
  ⟨"Total Waste",
    [⟨"Landfill", categoryChildren yearData "Landfill"⟩,
     ⟨"Recycling", categoryChildren yearData "Recycle"⟩,
     ⟨"Compost", categoryChildren yearData "Compost"⟩]⟩

/-- Sum of all leaf values of a composition tree. -/
def leafSum (root : CompRoot) : ℚ :=
  (root.children.map (fun c => (c.children.map (fun leaf => leaf.value)).sum)).sum

/-! ## Distribution (top-N) builder -/

structure CatVal where
  name : String
  value : ℚ
deriving DecidableEq

structure DistEntry where
  name : String
  totalWeight : ℚ
  categories : List CatVal
deriving DecidableEq

/-- The `Array.from` callback of `prepareDistributionData` (lines 298–309). -/
def distEntryOf (materialType : String) (items : List Record) : DistEntry :=
  ⟨materialType, sumBy Record.Weight items,
    (groupBy (fun d => d.Category) items).map (fun g => CatVal.mk g.1 (sumBy Record.Weight g.2))⟩

/-- The ranking stage of `prepareDistributionData` (lines 290–311, before the
`.slice`): group the filtered records by material, one entry per material in
first-appearance order, then stable sort descending by `totalWeight`. -/
def distributionRanking (data : List Record) (year : Option Int) : List DistEntry :=
  ((groupBy (fun d => d.MaterialType) (yearFilter data year)).map
    (fun g => distEntryOf g.1 g.2)).insertionSort
    (fun a b => b.totalWeight ≤ a.totalWeight)

/-- The top-N operation with the slice bound exposed as a parameter
(`.slice(0, k)`); the source hard-codes `k = 12` in `prepareDistributionData`
and `k = 10` in the companion `getDistributionData`. -/
def prepareDistributionDataK (data : List Record) (year : Option Int) (k : Nat) : List DistEntry :=
  (distributionRanking data year).take k

/-- `prepareDistributionData` (`dataProcessing.js` lines 290–313):
`.slice(0, 12)`. -/
def prepareDistributionData (data : List Record) (year : Option Int) : List DistEntry :=
  prepareDistributionDataK data year 12

/-! ## The `wasteData.js` module

`wasteData.js` declares `let wasteData = []`, starts an asynchronous
`d3.csv(...).then(...)` that reassigns `wasteData` when the promise resolves,
and then evaluates `export default wasteData.length > 0 ? wasteData : predefinedData`.
Per the JS event loop, the `.then` callback runs strictly after the module body
has finished evaluating, so the export expression always sees the initial
array.  This ordering is modelled by a two-step state machine: module-body
evaluation first, the callback (if the load succeeds) after. -/

/-- A record as built by the `.then` callback of `wasteData.js` (lines 17–28):
unlike `loadWasteData`, its `parseWeight` has no `NaN` guard, so the weight is
`Option ℚ` with `none` modelling `NaN`. -/
structure WRecord where
  Year : Option Int
  Month : String
  Day : String
  Category : String
  MaterialType : String
  Weight : Option ℚ
  Vendor : String
  DateUpdated : String
  Cost : String
deriving DecidableEq

/-- `parseWeight` (`wasteData.js` lines 8–12): falsy or empty string gives 0;
otherwise `parseFloat` of the comma-stripped string (possibly `NaN`). -/
def parseWeight (weightStr : Option String) : Option ℚ :=
  match weightStr with
  | none => some 0
  | some s => if s = "" then some 0 else parseFloatJS (stripCommas s)

/-- The per-row mapping of the `.then` callback (`wasteData.js` lines 17–28). -/
def wLoadRow (row : RawRow) : WRecord :=
  { Year := match row.year with
      | none => none
      | some s => if s = "" then none else parseIntJS s
    Month := jsOrStr row.month ""
    Day := jsOrStr row.day ""
    Category := jsOrStr row.category ""
    MaterialType := jsOrStr row.materialType ""
    Weight := parseWeight row.weightLbs
    Vendor := jsOrStr row.vendor ""
    DateUpdated := jsOrStr row.dateUpdated ""
    Cost := jsOrStr row.cost "" }

/-- The validity filter of `wasteData.js` line 29 (`NaN > 0` is false). -/
def wValidRecord (d : WRecord) : Bool :=
  numTruthy d.Year && decide (d.Category ≠ "") &&
    (match d.Weight with
     | none => false
     | some q => decide ((0 : ℚ) < q))

/-- One entry of the hard-coded fallback array (`wasteData.js` lines 65–106);
these literals carry only these five fields. -/
structure PredefRecord where
  Year : Int
  Month : String
  Category : String
  MaterialType : String
  Weight : ℚ
deriving DecidableEq

/-- `predefinedData` (`wasteData.js` lines 65–106). -/
def predefinedData : List PredefRecord :=
  [⟨2024, "Jan", "Landfill", "L-Landfill", 150000⟩,
   ⟨2024, "Feb", "Landfill", "L-Landfill", 140000⟩,
   ⟨2024, "Mar", "Landfill", "L-Landfill", 145000⟩,
   ⟨2024, "Jan", "Recycle", "R-Mixed recycling", 70000⟩,
   ⟨2024, "Feb", "Recycle", "R-Mixed recycling", 75000⟩,
   ⟨2024, "Mar", "Recycle", "R-Mixed recycling", 72000⟩,
   ⟨2024, "Jan", "Compost", "C-Organics", 50000⟩,
   ⟨2024, "Feb", "Compost", "C-Organics", 48000⟩,
   ⟨2024, "Mar", "Compost", "C-Organics", 52000⟩,
   ⟨2024, "Jun", "Landfill", "Food Waste", 60000⟩,
   ⟨2024, "Jun", "Landfill", "Paper", 32000⟩,
   ⟨2024, "Jun", "Landfill", "Plastic", 40000⟩,
   ⟨2024, "Jun", "Landfill", "Other", 28000⟩,
   ⟨2024, "Jun", "Recycle", "Paper", 40000⟩,
   ⟨2024, "Jun", "Recycle", "Plastic", 22000⟩,
   ⟨2024, "Jun", "Recycle", "Metal", 14000⟩,
   ⟨2024, "Jun", "Recycle", "Glass", 12000⟩,
   ⟨2024, "Jun", "Compost", "Food Waste", 55000⟩,
   ⟨2024, "Jun", "Compost", "Yard Waste", 28000⟩,
   ⟨2024, "Jun", "Compost", "Other Organics", 18000⟩,
   ⟨2024, "Jun", "Landfill", "BOH Food Waste", 35000⟩,
   ⟨2024, "Jun", "Landfill", "FOH Food Waste", 28000⟩,
   ⟨2024, "Jun", "Landfill", "Recyclable Beverage Containers", 8000⟩,
   ⟨2024, "Jun", "Landfill", "Compostable Serviceware", 15000⟩,
   ⟨2024, "Jun", "Landfill", "Misc Compost", 10000⟩,
   ⟨2024, "Jun", "Landfill", "Misc Recycling", 12000⟩,
   ⟨2024, "Jun", "Landfill", "Liquids", 5000⟩,
   ⟨2024, "Jun", "Landfill", "Surplus/Expired Food", 15000⟩,
   ⟨2024, "Jun", "Landfill", "Misc Landfill", 25000⟩]

/-- The value exported by the module: either the shared `wasteData` array or
the fallback; the two sides carry differently shaped objects in the source, so
the export is a sum. -/
inductive ModuleExport where
  | loaded (rows : List WRecord)
  | fallback (rows : List PredefRecord)
deriving DecidableEq

/-- `wasteData.js` module state: the shared mutable `wasteData` array and the
default export once the module body has evaluated it. -/
structure ModuleState where
  wasteData : List WRecord
  defaultExport : Option ModuleExport
deriving DecidableEq

/-- State before the module body runs: `let wasteData = []`, nothing exported
yet. -/
def initialModuleState : ModuleState := ⟨[], none⟩

/-- Synchronous module-body evaluation (`wasteData.js` line 109): computes
`wasteData.length > 0 ? wasteData : predefinedData` from the **current**
`wasteData`. -/
def evalModuleBody (s : ModuleState) : ModuleState :=
  let exported := if s.wasteData.length > 0 then ModuleExport.loaded s.wasteData
    else ModuleExport.fallback predefinedData
  { s with defaultExport := some exported }

/-- The deferred `.then` callback (`wasteData.js` lines 15–30): reassigns
`wasteData`; runs only after module-body evaluation. -/
def csvThenCallback (csvData : List RawRow) (s : ModuleState) : ModuleState :=
  { s with wasteData := (csvData.map wLoadRow).filter wValidRecord }

/-- The whole module lifecycle: evaluate the body, then (iff the CSV promise
resolves) run the callback. -/
def runWasteDataModule (csvResult : Except String (List RawRow)) : ModuleState :=
  match csvResult with
  | Except.ok rows => csvThenCallback rows (evalModuleBody initialModuleState)
  | Except.error _ => evalModuleBody initialModuleState

end WMS

namespace WMS

/-! ## Concrete inputs used in counterexamples and witnesses -/

/-- A raw CSV row spelled with category `"Recycle"` and weight `"1,000"`. -/
def rawRecycleRow : RawRow :=
  ⟨some "2024", some "Jan", none, some "Recycle", some "Paper", some "1,000", none, none, none⟩

/-- A validated record spelled `"Recycle"`. -/
def recRecycle : Record := ⟨some 2024, "Jan", "", "Recycle", "Paper", 1, "", "", ""⟩

/-- A validated record spelled `"Recycling"`. -/
def recRecycling : Record := ⟨some 2024, "Jan", "", "Recycling", "Paper", 2, "", "", ""⟩

/-- A validated record in category `"Reuse"`. -/
def recReuse : Record := ⟨some 2024, "", "", "Reuse", "Donations", 5, "", "", ""⟩

/-- A validated `"Landfill"` record for 2021. -/
def recLandfill2021 : Record := ⟨some 2021, "", "", "Landfill", "Paper", 3, "", "", ""⟩

/-- A second `"Reuse"` record, used against the hierarchy builder. -/
def recReuse7 : Record := ⟨some 2023, "", "", "Reuse", "Pallets", 7, "", "", ""⟩

/-- Two records of the same (material, category) pair, for the graph builder. -/
def recPaperRecycle2 : Record := ⟨some 2024, "", "", "Recycle", "Paper", 2, "", "", ""⟩

/-- Materials A, B, C, D with totals 100, 90, 90, 10 (B appears before C). -/
def recA : Record := ⟨some 2024, "", "", "Landfill", "A", 100, "", "", ""⟩

def recB : Record := ⟨some 2024, "", "", "Landfill", "B", 90, "", "", ""⟩

def recC : Record := ⟨some 2024, "", "", "Landfill", "C", 90, "", "", ""⟩

def recD : Record := ⟨some 2024, "", "", "Landfill", "D", 10, "", "", ""⟩

/-- A raw row whose weight string parses (`"12.5"`) — a valid row. -/
def rawGoodRow : RawRow :=
  ⟨some "2021", none, none, some "Compost", some "Food", some "12.5", none, none, none⟩

/-- A raw row whose weight string fails to parse (`"n/a"` gives `NaN`). -/
def rawBadWeightRow : RawRow :=
  ⟨some "2021", none, none, some "Compost", some "Food", some "n/a", none, none, none⟩

/-! ## General lemmas about the d3 list primitives -/

theorem dedupFirst_nil {β : Type} [DecidableEq β] : dedupFirst ([] : List β) = [] := rfl

theorem dedupFirst_cons {β : Type} [DecidableEq β] (x : β) (xs : List β) :
    dedupFirst (x :: xs) = x :: (dedupFirst xs).filter (fun y => decide (y ≠ x)) := rfl

theorem mem_dedupFirst {β : Type} [DecidableEq β] {a : β} :
    ∀ {l : List β}, a ∈ dedupFirst l ↔ a ∈ l := by
  intro l
  induction l with
  | nil => simp [dedupFirst_nil]
  | cons x xs ih =>
    by_cases hax : a = x
    · subst hax; simp [dedupFirst_cons]
    · simp [dedupFirst_cons, List.mem_filter, hax, ih]

theorem dedupFirst_nodup {β : Type} [DecidableEq β] :
    ∀ (l : List β), (dedupFirst l).Nodup := by
  intro l
  induction l with
  | nil => simp [dedupFirst_nil]
  | cons x xs ih =>
    rw [dedupFirst_cons]
    refine List.Pairwise.cons ?_ (List.Nodup.filter _ ih)
    intro b hb
    have hbx : b ≠ x := by simpa using (List.mem_filter.mp hb).2
    exact fun h => hbx h.symm

theorem sum_map_add {α : Type} (f g : α → ℚ) :
    ∀ (l : List α), (l.map (fun x => f x + g x)).sum = (l.map f).sum + (l.map g).sum := by
  intro l
  induction l with
  | nil => simp
  | cons x xs ih => simp [ih]; ring

theorem sum_map_ite_single {β : Type} [DecidableEq β] (a : β) (w : ℚ) :
    ∀ (keys : List β), keys.Nodup → a ∈ keys →
      (keys.map (fun k => if a = k then w else 0)).sum = w := by
  intro keys
  induction keys with
  | nil => intro _ h; cases h
  | cons k ks ih =>
    intro hnd hmem
    rcases List.mem_cons.mp hmem with h | h
    · subst h
      have hnotin : a ∉ ks := (List.nodup_cons.mp hnd).1
      have hz : (ks.map (fun k => if a = k then w else 0)).sum = 0 := by
        rw [List.sum_eq_zero]
        intro q hq
        rcases List.mem_map.mp hq with ⟨k', hk', rfl⟩
        have : a ≠ k' := fun h => hnotin (h ▸ hk')
        simp [this]
      simp [hz]
    · have hne : a ≠ k := by
        rintro rfl
        exact (List.nodup_cons.mp hnd).1 h
      have := ih (List.nodup_cons.mp hnd).2 h
      simp [hne, this]

theorem sum_filter_key_partition {α β : Type} [DecidableEq β] (f : α → β) (w : α → ℚ) :
    ∀ (l : List α) (keys : List β), keys.Nodup → (∀ x ∈ l, f x ∈ keys) →
      (keys.map (fun k => sumBy w (l.filter (fun x => decide (f x = k))))).sum = sumBy w l := by
  intro l
  induction l with
  | nil =>
    intro keys _ _
    rw [List.sum_eq_zero]
    · rfl
    · intro q hq
      rcases List.mem_map.mp hq with ⟨k, _, rfl⟩
      simp [sumBy]
  | cons x xs ih =>
    intro keys hnd hcov
    have hx : f x ∈ keys := hcov x (List.mem_cons_self x xs)
    have hcov' : ∀ y ∈ xs, f y ∈ keys := fun y hy => hcov y (List.mem_cons_of_mem x hy)
    have hsplit : ∀ k : β, sumBy w ((x :: xs).filter (fun y => decide (f y = k)))
        = (if f x = k then w x else 0) + sumBy w (xs.filter (fun y => decide (f y = k))) := by
      intro k
      by_cases h : f x = k <;> simp [List.filter_cons, h, sumBy]
    calc (keys.map (fun k => sumBy w ((x :: xs).filter (fun y => decide (f y = k))))).sum
        = (keys.map (fun k => (if f x = k then w x else 0)
            + sumBy w (xs.filter (fun y => decide (f y = k))))).sum := by
          congr 1
          exact List.map_congr_left (fun k _ => hsplit k)
      _ = (keys.map (fun k => if f x = k then w x else 0)).sum
            + (keys.map (fun k => sumBy w (xs.filter (fun y => decide (f y = k))))).sum :=
          sum_map_add _ _ keys
      _ = w x + sumBy w xs := by
          rw [sum_map_ite_single (f x) (w x) keys hnd hx, ih keys hnd hcov']
      _ = sumBy w (x :: xs) := by simp [sumBy]

/-- Summing group sums over `groupBy` recovers the sum over the whole list. -/
theorem sum_groupBy {α β : Type} [DecidableEq β] (f : α → β) (w : α → ℚ) (l : List α) :
    ((groupBy f l).map (fun g => sumBy w g.2)).sum = sumBy w l := by
  unfold groupBy
  rw [List.map_map]
  exact sum_filter_key_partition f w l (dedupFirst (l.map f)) (dedupFirst_nodup _)
    (fun x hx => mem_dedupFirst.mpr (List.mem_map_of_mem f hx))

theorem sumBy_filter_disjoint {α : Type} (w : α → ℚ) (p q : α → Bool)
    (hdisj : ∀ x, ¬(p x = true ∧ q x = true)) :
    ∀ (l : List α), sumBy w (l.filter p) + sumBy w (l.filter q)
      = sumBy w (l.filter (fun x => p x || q x)) := by
  intro l
  induction l with
  | nil => simp [sumBy]
  | cons x xs ih =>
    simp only [sumBy] at ih
    cases hp : p x <;> cases hq : q x
    case true.true => exact absurd ⟨hp, hq⟩ (hdisj x)
    all_goals
      simp [List.filter_cons, hp, hq, sumBy]
    all_goals linarith

theorem sumBy_nonneg {α : Type} (w : α → ℚ) :
    ∀ (l : List α), (∀ x ∈ l, 0 < w x) → 0 ≤ sumBy w l := by
  intro l
  induction l with
  | nil => intro _; simp [sumBy]
  | cons x xs ih =>
    intro hpos
    have hx : (0:ℚ) < w x := hpos x (List.mem_cons_self x xs)
    have hxs := ih (fun y hy => hpos y (List.mem_cons_of_mem x hy))
    simp only [sumBy] at hxs
    simp only [sumBy, List.map_cons, List.sum_cons]
    linarith

theorem sumBy_pos {α : Type} (w : α → ℚ) :
    ∀ (l : List α), l ≠ [] → (∀ x ∈ l, 0 < w x) → 0 < sumBy w l := by
  intro l
  cases l with
  | nil => intro h; exact absurd rfl h
  | cons x xs =>
    intro _ hpos
    have hx : (0:ℚ) < w x := hpos x (List.mem_cons_self x xs)
    have hxs := sumBy_nonneg w xs (fun y hy => hpos y (List.mem_cons_of_mem x hy))
    simp only [sumBy] at hxs
    simp only [sumBy, List.map_cons, List.sum_cons]
    linarith

end WMS

namespace WMS

/-! ## Claim C8: load failure returns the empty sequence -/

/-- C8: for every load attempt in which the source cannot be read or parsed at
all (the `d3.csv` promise rejects and the `catch` block runs), `loadWasteData`
returns the empty sequence; as a total Lean function it raises nothing to the
caller. -/
theorem c8_load_failure_returns_empty (e : String) :
    loadWasteData (Except.error e) = [] := rfl

/-! ## Claim C10: the default export of `wasteData.js` -/

/-- C10: whatever the CSV load does (succeeds with any row set, or fails), the
module's default export is the hard-coded `predefinedData` fallback: the export
expression is evaluated while the module-level `wasteData` array is still
empty, because the asynchronous `.then` callback runs only after module-body
evaluation, so `wasteData.length > 0` is false at export time. -/
theorem c10_default_export_always_predefined (csvResult : Except String (List RawRow)) :
    (runWasteDataModule csvResult).defaultExport
      = some (ModuleExport.fallback predefinedData) := by
  cases csvResult <;>
    simp [runWasteDataModule, csvThenCallback, evalModuleBody, initialModuleState]

/-! ## Claim C9: behaviour of the builders on the empty record sequence -/

/-- C9 counterexample: on the empty record sequence the Hierarchy Builder does
**not** return a tree with no children — the root carries the three fixed
category children (each childless), so the claimed shape (`children` empty) is
false at the concrete input `[]`. -/
theorem c9_counterexample_empty_hierarchy_has_children :
    (prepareCompositionData [] none).children.length = 3 ∧ (3 : Nat) ≠ 0 := by
  constructor
  · simp [prepareCompositionData, yearFilter]
  · decide

/-- C9 (amended): on the empty record sequence every builder returns an
empty-but-well-formed result and (being a total function) never returns
null/undefined and never raises — the time-series builder the empty sequence,
the Graph Builder a graph with no nodes and no links, and the Hierarchy Builder
a root `"Total Waste"` whose children are always the three fixed category nodes
`"Landfill"`, `"Recycling"`, `"Compost"`, each with an empty children list (no
leaves), rather than a root with no children. -/
theorem c9_amended_empty_input_well_formed (year : Option Int) :
    prepareTimeSeriesData [] = []
  ∧ prepareNetworkData [] year = ⟨[], []⟩
  ∧ prepareCompositionData [] year
      = ⟨"Total Waste", [⟨"Landfill", []⟩, ⟨"Recycling", []⟩, ⟨"Compost", []⟩]⟩ := by
  refine ⟨?_, ?_, ?_⟩
  · simp [prepareTimeSeriesData, groupBy, dedupFirst_nil, List.insertionSort]
  · cases year <;>
      simp [prepareNetworkData, yearFilter]
  · cases year <;>
      simp [prepareCompositionData, yearFilter, categoryChildren, rollupSum, groupBy,
        dedupFirst_nil, List.insertionSort]

end WMS

namespace WMS

/-! ## Structural lemmas about the builders -/

theorem sumBy_filter_filter {α : Type} (w : α → ℚ) (p q : α → Bool) (l : List α) :
    sumBy w ((l.filter p).filter q) = sumBy w (l.filter (fun a => p a && q a)) := by
  rw [List.filter_filter]
  congr 1
  exact List.filter_congr (fun a _ => by rw [Bool.and_comm])

theorem bool_or3_factor (a b c d : Bool) :
    (((a && b) || (a && c)) || (a && d)) = (a && (b || (c || d))) := by
  cases a <;> cases b <;> cases c <;> cases d <;> rfl

/-- Membership in the time-series output, unfolded to the year keys. -/
theorem mem_prepareTimeSeriesData {data : List Record} {yt : YearTotal} :
    yt ∈ prepareTimeSeriesData data
      ↔ ∃ k ∈ dedupFirst (data.map Record.Year),
          yt = yearTotalOf k (data.filter (fun d => decide (d.Year = k))) := by
  unfold prepareTimeSeriesData groupBy
  rw [List.mem_insertionSort]
  constructor
  · intro h
    rw [List.mem_map] at h
    obtain ⟨g, hg, rfl⟩ := h
    rw [List.mem_map] at hg
    obtain ⟨k, hk, rfl⟩ := hg
    exact ⟨k, hk, rfl⟩
  · rintro ⟨k, hk, rfl⟩
    rw [List.mem_map]
    exact ⟨(k, data.filter (fun d => decide (d.Year = k))),
      List.mem_map.mpr ⟨k, hk, rfl⟩, rfl⟩

/-- The three per-category sums of a year entry, as filters over the whole
record sequence. -/
theorem yearTotalOf_fields (data : List Record) (k : Option Int) :
    (yearTotalOf k (data.filter (fun d => decide (d.Year = k)))).landfill
        = sumBy Record.Weight (data.filter (fun d => decide (d.Year = k ∧ d.Category = "Landfill")))
  ∧ (yearTotalOf k (data.filter (fun d => decide (d.Year = k)))).recycling
        = sumBy Record.Weight (data.filter (fun d => decide (d.Year = k ∧ d.Category = "Recycle")))
  ∧ (yearTotalOf k (data.filter (fun d => decide (d.Year = k)))).compost
        = sumBy Record.Weight (data.filter (fun d => decide (d.Year = k ∧ d.Category = "Compost"))) := by
  refine ⟨?_, ?_, ?_⟩ <;>
  · show sumBy Record.Weight ((data.filter (fun d => decide (d.Year = k))).filter _) = _
    rw [sumBy_filter_filter]
    congr 1
    exact List.filter_congr (fun d _ => Bool.and_eq_decide _ _)

end WMS

namespace WMS

/-! ## Claim C2: the year total -/

/-- C2 counterexample: the claim `YearTotal(Y).total = Σ weight of all valid
records with year Y` fails at the single valid record `recReuse` (category
`"Reuse"`, weight 5, year 2024): the entry for 2024 has `total = 0`, while the
sum of all valid record weights for 2024 is 5. -/
theorem c2_counterexample_reuse_not_in_total :
    prepareTimeSeriesData [recReuse] = [⟨some 2024, 0, 0, 0, 0⟩]
  ∧ sumBy Record.Weight ([recReuse].filter (fun d => decide (d.Year = some 2024))) = 5
  ∧ (0 : ℚ) ≠ 5 := by
  refine ⟨?_, ?_, by norm_num⟩
  · simp [prepareTimeSeriesData, groupBy, dedupFirst_cons, dedupFirst_nil, yearTotalOf, sumBy,
      recReuse, List.insertionSort, List.orderedInsert, List.filter_cons]
  · simp [sumBy, recReuse, List.filter_cons]

/-- C2 (amended): for every record sequence, the `total` of each entry of the
time-series output equals the sum of the weights of the records of that year
whose category is **literally** `"Landfill"`, `"Recycle"` or `"Compost"`;
records of any other category (e.g. `"Reuse"` or `"Recycling"`) are not
counted. -/
theorem c2_amended_total_sums_three_categories (data : List Record) (yt : YearTotal)
    (h : yt ∈ prepareTimeSeriesData data) :
    yt.total = sumBy Record.Weight (data.filter (fun d =>
      decide (d.Year = yt.year ∧
        (d.Category = "Landfill" ∨ d.Category = "Recycle" ∨ d.Category = "Compost")))) := by
  obtain ⟨k, hk, rfl⟩ := mem_prepareTimeSeriesData.mp h
  have hyear : (yearTotalOf k (data.filter (fun d => decide (d.Year = k)))).year = k := rfl
  rw [hyear]
  obtain ⟨hL, hR, hC⟩ := yearTotalOf_fields data k
  have htot : (yearTotalOf k (data.filter (fun d => decide (d.Year = k)))).total
      = (yearTotalOf k (data.filter (fun d => decide (d.Year = k)))).landfill
        + (yearTotalOf k (data.filter (fun d => decide (d.Year = k)))).recycling
        + (yearTotalOf k (data.filter (fun d => decide (d.Year = k)))).compost := rfl
  rw [htot, hL, hR, hC]
  have h12 := sumBy_filter_disjoint Record.Weight
    (fun d => decide (d.Year = k ∧ d.Category = "Landfill"))
    (fun d => decide (d.Year = k ∧ d.Category = "Recycle"))
    (by
      intro x ⟨h1, h2⟩
      simp only [decide_eq_true_eq] at h1 h2
      have := h1.2.symm.trans h2.2
      simp at this) data
  rw [h12]
  have h123 := sumBy_filter_disjoint Record.Weight
    (fun d => decide (d.Year = k ∧ d.Category = "Landfill")
      || decide (d.Year = k ∧ d.Category = "Recycle"))
    (fun d => decide (d.Year = k ∧ d.Category = "Compost"))
    (by
      intro x ⟨h1, h2⟩
      simp only [Bool.or_eq_true, decide_eq_true_eq] at h1 h2
      rcases h1 with h1 | h1 <;>
        · have := h1.2.symm.trans h2.2
          simp at this) data
  rw [h123]
  congr 1
  refine List.filter_congr (fun d _ => ?_)
  by_cases hy : d.Year = k <;> by_cases h1 : d.Category = "Landfill" <;>
    by_cases h2 : d.Category = "Recycle" <;> by_cases h3 : d.Category = "Compost" <;>
    simp [hy, h1, h2, h3]

/-- C2 witness: the amended theorem applied to the single-record input
`[recRecycle]` and its concrete output entry. -/
theorem c2_amended_witness :
    (⟨some 2024, 0, 1, 0, 1⟩ : YearTotal) ∈ prepareTimeSeriesData [recRecycle]
  ∧ (⟨some 2024, 0, 1, 0, 1⟩ : YearTotal).total
      = sumBy Record.Weight ([recRecycle].filter (fun d =>
          decide (d.Year = (⟨some 2024, 0, 1, 0, 1⟩ : YearTotal).year ∧
            (d.Category = "Landfill" ∨ d.Category = "Recycle" ∨ d.Category = "Compost")))) := by
  have hmem : (⟨some 2024, 0, 1, 0, 1⟩ : YearTotal) ∈ prepareTimeSeriesData [recRecycle] := by
    simp [prepareTimeSeriesData, groupBy, dedupFirst_cons, dedupFirst_nil, yearTotalOf, sumBy,
      recRecycle, List.insertionSort, List.orderedInsert, List.filter_cons]
  exact ⟨hmem, c2_amended_total_sums_three_categories [recRecycle] _ hmem⟩

/-! ## Claim C3: per-year category totals -/

/-- C3 counterexample: a year entry carries exactly the keys
`year, landfill, recycling, compost, total` — there is no `reuse` category
total, so "all four category totals defined" is false already at the one-record
input `[recLandfill2021]`, whose output has an entry for 2021. -/
theorem c3_counterexample_no_reuse_key :
    (prepareTimeSeriesData [recLandfill2021]).length = 1
  ∧ "reuse" ∉ yearTotalKeys
  ∧ "landfill" ∈ yearTotalKeys ∧ "recycling" ∈ yearTotalKeys ∧ "compost" ∈ yearTotalKeys := by
  refine ⟨?_, by decide, by decide, by decide, by decide⟩
  simp [prepareTimeSeriesData, groupBy, dedupFirst_cons, dedupFirst_nil,
    List.insertionSort, List.orderedInsert]

/-- C3 (amended): every year present in the input appears in the time-series
output, and each entry defines exactly **three** category totals — `landfill`,
`recycling`, `compost` — each equal to the weight sum over the records of that
year with the corresponding literal source category (`"Landfill"`,
`"Recycle"`, `"Compost"`), hence 0 when no such record exists; there is no
`reuse` total. -/
theorem c3_amended_three_category_totals (data : List Record) :
    (∀ y : Option Int, (∃ d ∈ data, d.Year = y) →
        ∃ yt ∈ prepareTimeSeriesData data, yt.year = y)
  ∧ (∀ yt ∈ prepareTimeSeriesData data,
        yt.landfill = sumBy Record.Weight (data.filter (fun d =>
          decide (d.Year = yt.year ∧ d.Category = "Landfill")))
      ∧ yt.recycling = sumBy Record.Weight (data.filter (fun d =>
          decide (d.Year = yt.year ∧ d.Category = "Recycle")))
      ∧ yt.compost = sumBy Record.Weight (data.filter (fun d =>
          decide (d.Year = yt.year ∧ d.Category = "Compost")))) := by
  constructor
  · rintro y ⟨d, hd, hdy⟩
    refine ⟨yearTotalOf y (data.filter (fun d => decide (d.Year = y))), ?_, rfl⟩
    exact mem_prepareTimeSeriesData.mpr
      ⟨y, mem_dedupFirst.mpr (List.mem_map.mpr ⟨d, hd, hdy⟩), rfl⟩
  · intro yt hyt
    obtain ⟨k, hk, rfl⟩ := mem_prepareTimeSeriesData.mp hyt
    exact yearTotalOf_fields data k

/-- C3 witness: the amended theorem applied to the one-record input
`[recLandfill2021]` and its concrete output entry. -/
theorem c3_amended_witness :
    (∃ yt ∈ prepareTimeSeriesData [recLandfill2021], yt.year = some 2021)
  ∧ (⟨some 2021, 3, 0, 0, 3⟩ : YearTotal).landfill
      = sumBy Record.Weight ([recLandfill2021].filter (fun d =>
          decide (d.Year = (⟨some 2021, 3, 0, 0, 3⟩ : YearTotal).year ∧
            d.Category = "Landfill"))) := by
  have hmem : (⟨some 2021, 3, 0, 0, 3⟩ : YearTotal) ∈ prepareTimeSeriesData [recLandfill2021] := by
    simp [prepareTimeSeriesData, groupBy, dedupFirst_cons, dedupFirst_nil, yearTotalOf, sumBy,
      recLandfill2021, List.insertionSort, List.orderedInsert, List.filter_cons]
  exact ⟨(c3_amended_three_category_totals [recLandfill2021]).1 (some 2021)
      ⟨recLandfill2021, List.mem_cons_self _ _, rfl⟩,
    ((c3_amended_three_category_totals [recLandfill2021]).2 _ hmem).1⟩

end WMS

namespace WMS

/-! ## Claim C1: category canonicalization -/

/-- C1 counterexample: the Loader does **not** canonicalize `"Recycle"` to
`"Recycling"` (the raw row `rawRecycleRow` loads with category `"Recycle"`
unchanged), and the two spellings do not collapse into one bucket: on the input
`[recRecycle, recRecycling]` (weights 1 and 2) the time-series recycling total
is 1, although the records normalizing to `"Recycling"` weigh 3. -/
theorem c1_counterexample_no_loader_canonicalization :
    (loadWasteDataOk [rawRecycleRow]).map (fun d => d.Category) = ["Recycle"]
  ∧ (loadWasteDataOk [rawRecycleRow]).map (fun d => d.Category) ≠ ["Recycling"]
  ∧ (prepareTimeSeriesData [recRecycle, recRecycling]).map (fun yt => yt.recycling) = [1]
  ∧ sumBy Record.Weight ([recRecycle, recRecycling].filter
      (fun d => decide (normCat d.Category = "Recycling"))) = 3
  ∧ (1 : ℚ) ≠ 3 := by
  have hw : parseFloatJS (stripCommas "1,000")
      = some ((digitsToNat ['1','0','0','0'] : ℚ)
          + (digitsToNat ([] : List Char) : ℚ) / (10:ℚ) ^ (([] : List Char).length)) := rfl
  have hy : parseIntJS "2024" = some ((digitsToNat ['2','0','2','4'] : Int)) := rfl
  have hload : (loadWasteDataOk [rawRecycleRow]).map (fun d => d.Category) = ["Recycle"] := by
    simp [loadWasteDataOk, loadRow, rawRecycleRow, jsOrStr, validRecord, numTruthy, hw, hy,
      List.filter_cons, digitsToNat]
  refine ⟨hload, ?_, ?_, ?_, by norm_num⟩
  · rw [hload]; decide
  · simp [prepareTimeSeriesData, groupBy, dedupFirst_cons, dedupFirst_nil, yearTotalOf, sumBy,
      recRecycle, recRecycling, List.insertionSort, List.orderedInsert, List.filter_cons]
  · simp [sumBy, normCat, recRecycle, recRecycling, List.filter_cons]
    norm_num

/-- C1 (amended): the Loader passes the category string through unchanged; the
`"Recycle"` → `"Recycling"` renaming exists only inside the graph builder
(`normCat`), while the time-series and hierarchy builders select their
recycling bucket by the literal `"Recycle"` — so on any input with no record
spelled `"Recycle"` (even one full of `"Recycling"` records), every
time-series recycling total is 0 and the `"Recycling"` subtree has no
leaves. -/
theorem c1_amended_normalization_only_in_graph (row : RawRow) (data : List Record)
    (h : ∀ d ∈ data, d.Category ≠ "Recycle") :
    (loadRow row).Category = jsOrStr row.category ""
  ∧ normCat "Recycle" = "Recycling"
  ∧ (∀ yt ∈ prepareTimeSeriesData data, yt.recycling = 0)
  ∧ (∀ c ∈ (prepareCompositionData data none).children,
        c.name = "Recycling" → c.children = []) := by
  refine ⟨rfl, rfl, ?_, ?_⟩
  · intro yt hyt
    obtain ⟨k, hk, rfl⟩ := mem_prepareTimeSeriesData.mp hyt
    have hrec : (yearTotalOf k (data.filter (fun d => decide (d.Year = k)))).recycling
        = sumBy Record.Weight ((data.filter (fun d => decide (d.Year = k))).filter
            (fun d => decide (d.Category = "Recycle"))) := rfl
    have hempty : (data.filter (fun d => decide (d.Year = k))).filter
        (fun d => decide (d.Category = "Recycle")) = [] := by
      rw [List.filter_eq_nil_iff]
      intro d hd
      simpa using h d (List.mem_of_mem_filter hd)
    rw [hrec, hempty]
    rfl
  · intro c hc hname
    have hchildren : (prepareCompositionData data none).children
        = [⟨"Landfill", categoryChildren data "Landfill"⟩,
           ⟨"Recycling", categoryChildren data "Recycle"⟩,
           ⟨"Compost", categoryChildren data "Compost"⟩] := rfl
    have hrec : categoryChildren data "Recycle" = [] := by
      unfold categoryChildren
      have hnil : data.filter (fun d => decide (d.Category = "Recycle")) = [] := by
        rw [List.filter_eq_nil_iff]
        intro d hd
        simpa using h d hd
      rw [hnil]
      rfl
    rw [hchildren] at hc
    simp only [List.mem_cons, List.not_mem_nil, or_false] at hc
    rcases hc with rfl | rfl | rfl
    · simp at hname
    · exact hrec
    · simp at hname

/-- C1 witness: the amended theorem applied to `rawRecycleRow` and the
single-record input `[recRecycling]`, whose time-series entry has recycling
total 0. -/
theorem c1_amended_witness :
    (loadRow rawRecycleRow).Category = jsOrStr rawRecycleRow.category ""
  ∧ (⟨some 2024, 0, 0, 0, 0⟩ : YearTotal).recycling = 0 := by
  have happ := c1_amended_normalization_only_in_graph rawRecycleRow [recRecycling]
    (by
      intro d hd
      rw [List.mem_singleton] at hd
      subst hd
      decide)
  refine ⟨happ.1, happ.2.2.1 ⟨some 2024, 0, 0, 0, 0⟩ ?_⟩
  simp [prepareTimeSeriesData, groupBy, dedupFirst_cons, dedupFirst_nil, yearTotalOf, sumBy,
    recRecycling, List.insertionSort, List.orderedInsert, List.filter_cons]

end WMS

namespace WMS

/-! ## Claim C4: hierarchy leaf-sum conservation -/

theorem filter_groupKey_ne_nil {α β : Type} [DecidableEq β] (f : α → β) (l : List α) (k : β)
    (hk : k ∈ dedupFirst (l.map f)) :
    l.filter (fun x => decide (f x = k)) ≠ [] := by
  obtain ⟨x, hx, rfl⟩ := List.mem_map.mp (mem_dedupFirst.mp hk)
  intro hnil
  have hxmem : x ∈ l.filter (fun y => decide (f y = f x)) :=
    List.mem_filter.mpr ⟨hx, by simp⟩
  rw [hnil] at hxmem
  exact List.not_mem_nil x hxmem

/-- Membership of records of a `yearFilter` output in the original data. -/
theorem mem_of_mem_yearFilter {data : List Record} {year : Option Int} {d : Record}
    (h : d ∈ yearFilter data year) : d ∈ data := by
  cases year with
  | none => exact h
  | some y => exact List.mem_of_mem_filter h

/-- The leaves of one category node sum to the weight of the records with that
literal category: the `value > 0` filter never drops a leaf when every record
weight is positive, and the sort permutes leaves without changing the sum. -/
theorem sum_categoryChildren (yd : List Record) (cat : String)
    (hpos : ∀ d ∈ yd, (0 : ℚ) < d.Weight) :
    ((categoryChildren yd cat).map (fun leaf => leaf.value)).sum
      = sumBy Record.Weight (yd.filter (fun d => decide (d.Category = cat))) := by
  unfold categoryChildren
  have hperm := (List.perm_insertionSort (fun a b : CompLeaf => b.value ≤ a.value)
    (((rollupSum (fun d => d.MaterialType)
        (yd.filter (fun d => decide (d.Category = cat)))).map
      (fun p => CompLeaf.mk p.1 p.2)).filter
      (fun item => decide (0 < item.value)))).map (fun leaf => leaf.value)
  rw [hperm.sum_eq]
  have hkeep : ((rollupSum (fun d => d.MaterialType)
      (yd.filter (fun d => decide (d.Category = cat)))).map
        (fun p => CompLeaf.mk p.1 p.2)).filter (fun item => decide (0 < item.value))
      = (rollupSum (fun d => d.MaterialType)
          (yd.filter (fun d => decide (d.Category = cat)))).map
        (fun p => CompLeaf.mk p.1 p.2) := by
    apply List.filter_eq_self.mpr
    intro leaf hleaf
    obtain ⟨p, hp, rfl⟩ := List.mem_map.mp hleaf
    unfold rollupSum at hp
    obtain ⟨g, hg, rfl⟩ := List.mem_map.mp hp
    unfold groupBy at hg
    obtain ⟨k, hk, rfl⟩ := List.mem_map.mp hg
    have hne := filter_groupKey_ne_nil (fun d => d.MaterialType)
      (yd.filter (fun d => decide (d.Category = cat))) k hk
    have hval : (0 : ℚ) < sumBy Record.Weight
        ((yd.filter (fun d => decide (d.Category = cat))).filter
          (fun x => decide (x.MaterialType = k))) := by
      apply sumBy_pos _ _ hne
      intro x hx
      exact hpos x (List.mem_of_mem_filter (List.mem_of_mem_filter hx))
    simpa using hval
  rw [hkeep, List.map_map]
  unfold rollupSum
  rw [List.map_map]
  have hfun : ((fun leaf : CompLeaf => leaf.value) ∘ (fun p : String × ℚ => CompLeaf.mk p.1 p.2))
      ∘ (fun g : String × List Record => (g.1, sumBy Record.Weight g.2))
      = fun g : String × List Record => sumBy Record.Weight g.2 := rfl
  rw [hfun]
  exact sum_groupBy (fun d => d.MaterialType) Record.Weight _

end WMS

namespace WMS

/-- C4 counterexample: hierarchy conservation fails at the single valid record
`recReuse7` (category `"Reuse"`, weight 7): its weight is in no subtree, so the
leaf sum is 0 while the filtered record weights sum to 7. -/
theorem c4_counterexample_reuse_not_conserved :
    leafSum (prepareCompositionData [recReuse7] none) = 0
  ∧ sumBy Record.Weight (yearFilter [recReuse7] none) = 7
  ∧ (0 : ℚ) ≠ 7 := by
  refine ⟨?_, ?_, by norm_num⟩
  · simp [leafSum, prepareCompositionData, yearFilter, categoryChildren, rollupSum, groupBy,
      dedupFirst_cons, dedupFirst_nil, sumBy, recReuse7, List.insertionSort, List.orderedInsert,
      List.filter_cons]
  · simp [sumBy, yearFilter, recReuse7]

/-- C4 (amended): for positive-weight records, the sum of all leaf values of
the hierarchy equals the sum of the weights of the filtered records whose
category is **literally** `"Landfill"`, `"Recycle"` or `"Compost"`; records of
any other category (e.g. `"Reuse"`, `"Recycling"`) are omitted from the
tree. -/
theorem c4_amended_leaf_sum_three_categories (data : List Record) (year : Option Int)
    (hpos : ∀ d ∈ data, (0 : ℚ) < d.Weight) :
    leafSum (prepareCompositionData data year)
      = sumBy Record.Weight ((yearFilter data year).filter (fun d =>
          decide (d.Category = "Landfill" ∨ d.Category = "Recycle" ∨ d.Category = "Compost"))) := by
  have hpos' : ∀ d ∈ yearFilter data year, (0 : ℚ) < d.Weight :=
    fun d hd => hpos d (mem_of_mem_yearFilter hd)
  have hexpand : leafSum (prepareCompositionData data year)
      = ((categoryChildren (yearFilter data year) "Landfill").map (fun leaf => leaf.value)).sum
        + (((categoryChildren (yearFilter data year) "Recycle").map (fun leaf => leaf.value)).sum
        + (((categoryChildren (yearFilter data year) "Compost").map
              (fun leaf => leaf.value)).sum + 0)) := rfl
  rw [hexpand, sum_categoryChildren _ _ hpos', sum_categoryChildren _ _ hpos',
    sum_categoryChildren _ _ hpos', add_zero, ← add_assoc]
  have h12 := sumBy_filter_disjoint Record.Weight
    (fun d => decide (d.Category = "Landfill"))
    (fun d => decide (d.Category = "Recycle"))
    (by
      intro x ⟨h1, h2⟩
      simp only [decide_eq_true_eq] at h1 h2
      have := h1.symm.trans h2
      simp at this) (yearFilter data year)
  rw [h12]
  have h123 := sumBy_filter_disjoint Record.Weight
    (fun d => decide (d.Category = "Landfill") || decide (d.Category = "Recycle"))
    (fun d => decide (d.Category = "Compost"))
    (by
      intro x ⟨h1, h2⟩
      simp only [Bool.or_eq_true, decide_eq_true_eq] at h1 h2
      rcases h1 with h1 | h1 <;>
        · have := h1.symm.trans h2
          simp at this) (yearFilter data year)
  rw [h123]
  congr 1
  refine List.filter_congr (fun d _ => ?_)
  by_cases h1 : d.Category = "Landfill" <;> by_cases h2 : d.Category = "Recycle" <;>
    by_cases h3 : d.Category = "Compost" <;> simp [h1, h2, h3]

/-- C4 witness: the amended theorem applied to `[recLandfill2021]` with the
year filter `2021`; the record's weight 3 is positive. -/
theorem c4_amended_witness :
    (0 : ℚ) < recLandfill2021.Weight
  ∧ leafSum (prepareCompositionData [recLandfill2021] (some 2021))
      = sumBy Record.Weight ((yearFilter [recLandfill2021] (some 2021)).filter (fun d =>
          decide (d.Category = "Landfill" ∨ d.Category = "Recycle" ∨ d.Category = "Compost"))) := by
  have hpos : ∀ d ∈ [recLandfill2021], (0 : ℚ) < d.Weight := by
    intro d hd
    rw [List.mem_singleton] at hd
    subst hd
    norm_num [recLandfill2021]
  exact ⟨hpos recLandfill2021 (List.mem_singleton.mpr rfl),
    c4_amended_leaf_sum_three_categories [recLandfill2021] (some 2021) hpos⟩

end WMS

namespace WMS

/-! ## Claim C5: graph links -/

/-- C5 counterexample: two records of the same (material, category) pair
(`"Paper"`/`"Recycle"`, weights 1 and 2) yield **two** links with the same
source and target — the graph builder does not collapse multiplicities into
one weight-summed link per pair. -/
theorem c5_counterexample_duplicate_links :
    ((prepareNetworkData [recRecycle, recPaperRecycle2] none).links.map
        (fun l => (l.sourceName, l.targetName))) = [("Paper", "Recycling"), ("Paper", "Recycling")]
  ∧ (prepareNetworkData [recRecycle, recPaperRecycle2] none).links.length = 2
  ∧ (2 : Nat) ≠ 1 := by
  refine ⟨?_, ?_, by decide⟩ <;>
    simp [prepareNetworkData, yearFilter, networkNodes, networkLink, normCat,
      dedupFirst_cons, dedupFirst_nil, recRecycle, recPaperRecycle2, List.filter_cons]

/-- C5 (amended): the graph contains exactly one link **per filtered record**
(in input order), each carrying that record's weight, source the material and
target the normalized category; consequently, for every (material, category)
pair the link values sum to the pair's total weight, and with positive-weight
records no link has a non-positive value.  Distinct records of the same pair
yield distinct links rather than one collapsed link. -/
theorem c5_amended_one_link_per_record (data : List Record) (year : Option Int)
    (hpos : ∀ d ∈ data, (0 : ℚ) < d.Weight) :
    (prepareNetworkData data year).links.length = (yearFilter data year).length
  ∧ (∀ m c : String,
      sumBy NetLink.value ((prepareNetworkData data year).links.filter
          (fun l => decide (l.sourceName = m ∧ l.targetName = c)))
        = sumBy Record.Weight ((yearFilter data year).filter
            (fun d => decide (d.MaterialType = m ∧ normCat d.Category = c))))
  ∧ (∀ l ∈ (prepareNetworkData data year).links, (0 : ℚ) < l.value) := by
  by_cases hlen : (yearFilter data year).length = 0
  · have hnil : yearFilter data year = [] := List.length_eq_zero.mp hlen
    have hpn : prepareNetworkData data year = ⟨[], []⟩ := by
      unfold prepareNetworkData
      rw [if_pos hlen]
    refine ⟨?_, ?_, ?_⟩ <;> simp [hpn, hnil, sumBy]
  · have hpn : prepareNetworkData data year
        = ⟨networkNodes (yearFilter data year),
           (yearFilter data year).map (networkLink (networkNodes (yearFilter data year)))⟩ := by
      unfold prepareNetworkData
      rw [if_neg hlen]
    refine ⟨?_, ?_, ?_⟩
    · rw [hpn]
      exact List.length_map _ _
    · intro m c
      rw [hpn]
      show sumBy NetLink.value (((yearFilter data year).map
          (networkLink (networkNodes (yearFilter data year)))).filter
          (fun l => decide (l.sourceName = m ∧ l.targetName = c))) = _
      rw [List.filter_map]
      unfold sumBy
      rw [List.map_map]
      rfl
    · intro l hl
      rw [hpn] at hl
      obtain ⟨d, hd, rfl⟩ := List.mem_map.mp hl
      exact hpos d (mem_of_mem_yearFilter hd)

/-- C5 witness: the amended theorem applied to the single-record input
`[recRecycle]` and the pair ("Paper", "Recycling"). -/
theorem c5_amended_witness :
    (0 : ℚ) < recRecycle.Weight
  ∧ (prepareNetworkData [recRecycle] none).links.length = (yearFilter [recRecycle] none).length
  ∧ sumBy NetLink.value ((prepareNetworkData [recRecycle] none).links.filter
        (fun l => decide (l.sourceName = "Paper" ∧ l.targetName = "Recycling")))
      = sumBy Record.Weight ((yearFilter [recRecycle] none).filter
          (fun d => decide (d.MaterialType = "Paper" ∧ normCat d.Category = "Recycling"))) := by
  have hpos : ∀ d ∈ [recRecycle], (0 : ℚ) < d.Weight := by
    intro d hd
    rw [List.mem_singleton] at hd
    subst hd
    norm_num [recRecycle]
  have happ := c5_amended_one_link_per_record [recRecycle] none hpos
  exact ⟨hpos recRecycle (List.mem_singleton.mpr rfl), happ.1, happ.2.1 "Paper" "Recycling"⟩

end WMS

namespace WMS

/-! ## Claim C6: top-N distribution ranking -/

/-- Stability of the modelled sort: sorting descending on a key leaves the
sublist of entries with any given key value in its original order. -/
theorem insertionSort_filter_key_stable {α : Type} (key : α → ℚ) (l : List α) (t : ℚ) :
    (l.insertionSort (fun a b => key b ≤ key a)).filter (fun a => decide (key a = t))
      = l.filter (fun a => decide (key a = t)) := by
  have hpair : (l.filter (fun a => decide (key a = t))).Pairwise
      (fun a b => key b ≤ key a) := by
    apply List.pairwise_of_forall_mem_list
    intro a ha b hb
    have hat : key a = t := by simpa using (List.mem_filter.mp ha).2
    have hbt : key b = t := by simpa using (List.mem_filter.mp hb).2
    rw [hat, hbt]
  have hsub := List.sublist_insertionSort hpair (List.filter_sublist l)
  have hsub2 : List.Sublist (l.filter (fun a => decide (key a = t)))
      ((l.insertionSort (fun a b => key b ≤ key a)).filter (fun a => decide (key a = t))) := by
    have h2 := hsub.filter (fun a => decide (key a = t))
    rwa [List.filter_eq_self.mpr (fun a ha => (List.mem_filter.mp ha).2)] at h2
  have hperm := (List.perm_insertionSort (fun a b => key b ≤ key a) l).filter
    (fun a => decide (key a = t))
  exact (List.Sublist.eq_of_length hsub2 hperm.length_eq.symm).symm

/-- The ranking stage is sorted descending by total weight. -/
theorem distributionRanking_sorted (data : List Record) (year : Option Int) :
    List.Sorted (fun a b => b.totalWeight ≤ a.totalWeight) (distributionRanking data year) := by
  unfold distributionRanking
  haveI : IsTotal DistEntry (fun a b => b.totalWeight ≤ a.totalWeight) :=
    ⟨fun a b => le_total b.totalWeight a.totalWeight⟩
  haveI : IsTrans DistEntry (fun a b => b.totalWeight ≤ a.totalWeight) :=
    ⟨fun a b c hab hbc => le_trans hbc hab⟩
  exact List.sorted_insertionSort _ _

/-- C6: the distribution operation ranks materials by total weight (summed
across all categories) in descending order; the ranking is stable, so ties
keep the materials' first-appearance order (the order of the `groupBy`
entries); the result is exactly the first `k` ranked materials (`k` capped at
the number of distinct materials; the source hard-codes `k = 12`); the ranked
names are exactly the distinct material names.  In particular, for materials
A, B, C, D with totals 100, 90, 90, 10 (B appearing before C), the top 3 are
A, B, C — D is excluded and B precedes C. -/
theorem c6_topn_distribution_ranking (data : List Record) (year : Option Int) (k : Nat) :
    prepareDistributionData data year = prepareDistributionDataK data year 12
  ∧ prepareDistributionDataK data year k = (distributionRanking data year).take k
  ∧ (prepareDistributionDataK data year k).length
      = min k (dedupFirst ((yearFilter data year).map (fun d => d.MaterialType))).length
  ∧ List.Sorted (fun a b => b.totalWeight ≤ a.totalWeight) (distributionRanking data year)
  ∧ (∀ t : ℚ, (distributionRanking data year).filter (fun e => decide (e.totalWeight = t))
        = ((groupBy (fun d => d.MaterialType) (yearFilter data year)).map
            (fun g => distEntryOf g.1 g.2)).filter (fun e => decide (e.totalWeight = t)))
  ∧ ((distributionRanking data year).map (fun e => e.name)).Perm
      (dedupFirst ((yearFilter data year).map (fun d => d.MaterialType)))
  ∧ (prepareDistributionDataK [recA, recB, recC, recD] none 3).map (fun e => e.name)
      = ["A", "B", "C"] := by
  refine ⟨rfl, rfl, ?_, distributionRanking_sorted data year, ?_, ?_, ?_⟩
  · unfold prepareDistributionDataK
    rw [List.length_take]
    congr 1
    unfold distributionRanking
    rw [List.length_insertionSort, List.length_map]
    unfold groupBy
    rw [List.length_map]
  · intro t
    unfold distributionRanking
    exact insertionSort_filter_key_stable (fun e : DistEntry => e.totalWeight) _ t
  · have hperm := (List.perm_insertionSort
      (fun a b : DistEntry => b.totalWeight ≤ a.totalWeight)
      ((groupBy (fun d => d.MaterialType) (yearFilter data year)).map
        (fun g => distEntryOf g.1 g.2))).map (fun e => e.name)
    unfold distributionRanking
    refine hperm.trans ?_
    rw [List.map_map]
    rw [show ((fun e : DistEntry => e.name) ∘ fun g : String × List Record =>
        distEntryOf g.1 g.2) = fun g : String × List Record => g.1 from rfl]
    unfold groupBy
    rw [List.map_map]
    rw [show ((fun g : String × List Record => g.1) ∘ fun k =>
        (k, (yearFilter data year).filter (fun x => decide (x.MaterialType = k)))) = id from rfl]
    rw [List.map_id]
  · simp [prepareDistributionDataK, distributionRanking, yearFilter, groupBy, dedupFirst_cons,
      dedupFirst_nil, distEntryOf, sumBy, recA, recB, recC, recD, List.insertionSort,
      List.orderedInsert, List.filter_cons]
    norm_num

end WMS

namespace WMS

/-! ## Claim C7: loader validity invariant -/

/-- C7: the Loader's output contains no record with a null year, empty
category, or non-positive weight — every surviving record has `Year ≠ none`,
a non-empty category string, and strictly positive weight; moreover a row
whose weight string fails to parse gets weight 0 and is therefore rejected by
the validity filter. -/
theorem c7_loader_validity_invariant :
    (∀ (rows : List RawRow), ∀ d ∈ loadWasteDataOk rows,
        d.Year ≠ none ∧ d.Category ≠ "" ∧ (0 : ℚ) < d.Weight)
  ∧ (∀ row : RawRow, parseFloatJS (stripCommas (jsOrStr row.weightLbs "0")) = none →
        (loadRow row).Weight = 0 ∧ validRecord (loadRow row) = false) := by
  constructor
  · intro rows d hd
    have hv : validRecord d = true := (List.mem_filter.mp hd).2
    simp only [validRecord, Bool.and_eq_true, decide_eq_true_eq] at hv
    refine ⟨?_, hv.1.2, hv.2⟩
    intro hnone
    have hn := hv.1.1
    rw [hnone] at hn
    simp [numTruthy] at hn
  · intro row h
    have hw : (loadRow row).Weight = 0 := by
      show (parseFloatJS (stripCommas (jsOrStr row.weightLbs "0"))).getD 0 = 0
      rw [h]
      rfl
    refine ⟨hw, ?_⟩
    simp [validRecord, hw]

/-- C7 witness: the invariant applied to the parseable row `rawGoodRow`
(weight `"12.5"`) and the unparseable row `rawBadWeightRow` (weight
`"n/a"`). -/
theorem c7_loader_validity_witness :
    ((loadRow rawGoodRow).Year ≠ none ∧ (loadRow rawGoodRow).Category ≠ ""
      ∧ (0 : ℚ) < (loadRow rawGoodRow).Weight)
  ∧ ((loadRow rawBadWeightRow).Weight = 0 ∧ validRecord (loadRow rawBadWeightRow) = false) := by
  have hmem : loadRow rawGoodRow ∈ loadWasteDataOk [rawGoodRow] := by
    have hw : parseFloatJS (stripCommas "12.5")
        = some ((digitsToNat ['1','2'] : ℚ)
            + (digitsToNat ['5'] : ℚ) / (10 : ℚ) ^ ((['5'] : List Char).length)) := rfl
    have hy : parseIntJS "2021" = some ((digitsToNat ['2','0','2','1'] : Int)) := rfl
    simp [loadWasteDataOk, loadRow, rawGoodRow, jsOrStr, validRecord, numTruthy, hw, hy,
      List.filter_cons, digitsToNat]
    norm_num
  have hbad : parseFloatJS (stripCommas (jsOrStr rawBadWeightRow.weightLbs "0")) = none := rfl
  exact ⟨c7_loader_validity_invariant.1 [rawGoodRow] (loadRow rawGoodRow) hmem,
    c7_loader_validity_invariant.2 rawBadWeightRow hbad⟩

end WMS
